import Mathlib

/-!
Verification development for the `dcnetworkconfig` repository (`app.py`).

The core logic of the program is embedded shallowly:
* `TinyRAG` with its `retrieve` keyword-overlap scorer,
* `gemini_generate` with its defensive JSON response parsing,
* `agentic_network_configurator`, the orchestrator building the prompt.

Python-level primitives (`str.lower`, `str.split`, `str.strip`,
substring containment `in`, `" ".join`, list slicing `l[:k]`, JSON
values and dict lookup, truthiness) are modelled by the `py*`
functions below.  The HTTP POST together with `resp.json()` is
abstracted as an `HttpOutcome` input: either the raised exception's
message or the parsed JSON body.  A Python exception that escapes the
function is modelled as `Except.error`; a returned string is
`Except.ok`.
-/

set_option linter.unusedVariables false

/-- Python `str.lower()` (ASCII case folding, as used by the program's data). -/
def pyLower (s : String) : String :=
  String.mk (s.data.map Char.toLower)

/-- Helper for `pySplit`: accumulates the current word (reversed) while
scanning the character list; whitespace runs separate words and produce
no empty tokens, like Python `str.split()` with no argument. -/
def splitWsAux : List Char → List Char → List String
  | [], acc => if acc.isEmpty then [] else [String.mk acc.reverse]
  | c :: cs, acc =>
    if c.isWhitespace then
      if acc.isEmpty then splitWsAux cs [] else String.mk acc.reverse :: splitWsAux cs []
    else
      splitWsAux cs (c :: acc)

/-- Python `str.split()` with no separator argument. -/
def pySplit (s : String) : List String :=
  splitWsAux s.data []

/-- `isPrefixL n m` holds when the char list `n` is a prefix of `m`. -/
def isPrefixL : List Char → List Char → Bool
  | [], _ => true
  | _ :: _, [] => false
  | a :: as, b :: bs => a == b && isPrefixL as bs

/-- `isInfixL n m` holds when the char list `n` occurs contiguously in `m`. -/
def isInfixL (n : List Char) : List Char → Bool
  | [] => n.isEmpty
  | b :: bs => isPrefixL n (b :: bs) || isInfixL n bs

/-- Python substring containment `w in hay` for strings. -/
def pyIn (w hay : String) : Bool :=
  isInfixL w.data hay.data

/-- Python `str.strip()` with no argument: remove leading and trailing
whitespace. -/
def pyStrip (s : String) : String :=
  String.mk (((s.data.dropWhile Char.isWhitespace).reverse.dropWhile Char.isWhitespace).reverse)

/-- Python `sep.join(xs)`. -/
def pyJoin (sep : String) : List String → String
  | [] => ""
  | [x] => x
  | x :: xs => x ++ sep ++ pyJoin sep xs

/-- Python list slice `l[:k]` for an arbitrary (possibly negative) `k`. -/
def pySliceTo {α : Type} (k : Int) (l : List α) : List α :=
  if 0 ≤ k then l.take k.toNat else l.take ((l.length : Int) + k).toNat

/-- A parsed JSON value, as returned by `resp.json()`. -/
inductive JValue where
  | null
  | bool (b : Bool)
  | num (q : Rat)
  | str (s : String)
  | arr (elems : List JValue)
  | obj (fields : List (String × JValue))

/-- Lookup in a JSON object (Python dict with string keys; the dicts in
the modelled responses have distinct keys). -/
def jLookup : List (String × JValue) → String → Option JValue
  | [], _ => none
  | (k, v) :: rest, key => if k == key then some v else jLookup rest key

/-- Python truthiness of a JSON value. -/
def pyTruthy : JValue → Bool
  | .null => false
  | .bool b => b
  | .num q => q != 0
  | .str s => s != ""
  | .arr elems => !elems.isEmpty
  | .obj fields => !fields.isEmpty

-- ---------- Gemini Config ----------

def MODEL_NAME : String := "gemini-2.0-flash-lite"

def API_URL : String :=
  "https://generativelanguage.googleapis.com/v1beta/models/" ++ MODEL_NAME ++ ":generateContent"

-- ---------- Tiny RAG (Knowledge Base) ----------

structure TinyRAG where
  docs : List String

def doc0 : String := "VPN setup requires defining tunnel interfaces, encryption, and peer IPs."
def doc1 : String := "ACLs should be applied carefully to avoid blocking legitimate traffic."
def doc2 : String := "Routing updates need proper redistribution to prevent loops."
def doc3 : String := "Device commands must match OS syntax (Cisco IOS, Juniper Junos, etc.)."

/-- The fixed knowledge base set up by `TinyRAG.__init__`. -/
def TinyRAG.defaultRAG : TinyRAG :=
  ⟨[doc0, doc1, doc2, doc3]⟩

/-- `sum(1 for w in query_words if w in doc.lower())` from
`TinyRAG.retrieve`. -/
def docScore (query_words : List String) (doc : String) : Nat :=
  query_words.countP (fun w => pyIn w (pyLower doc))

/-- The `scored` list built by the loop in `TinyRAG.retrieve`, before
sorting: pairs `(score, doc)` for the docs with positive score, in
collection order. -/
def TinyRAG.scoredList (rag : TinyRAG) (query : String) : List (Nat × String) :=
  let query_words := pySplit (pyLower query)
  rag.docs.foldl
    (fun scored doc =>
      let score := docScore query_words doc
      if 0 < score then scored ++ [(score, doc)] else scored)
    []

/-- Insertion step of the stable descending-by-score sort modelling
`scored.sort(key=lambda x: -x[0])` (Python's sort is stable). -/
def insertDesc (p : Nat × String) : List (Nat × String) → List (Nat × String)
  | [] => [p]
  | q :: qs => if p.1 < q.1 then q :: insertDesc p qs else p :: q :: qs

/-- Stable sort by descending score, modelling
`scored.sort(key=lambda x: -x[0])`. -/
def stableSortDesc : List (Nat × String) → List (Nat × String)
  | [] => []
  | p :: ps => insertDesc p (stableSortDesc ps)

/-- `TinyRAG.retrieve(query, k=3)`: score, keep positives, stable-sort
descending, slice `[:k]`, project the doc texts. -/
def TinyRAG.retrieve (rag : TinyRAG) (query : String) (k : Int := 3) : List String :=
  (pySliceTo k (stableSortDesc (rag.scoredList query))).map Prod.snd

-- ---------- Gemini Client ----------

/-- Outcome of `requests.post(...)` followed by `resp.json()`: either an
exception (its message) caught by the `except` clause, or the parsed
JSON body. -/
inductive HttpOutcome where
  | failure (e : String)
  | success (data : JValue)

/-- The request body built by `gemini_generate`. -/
def geminiPayload (prompt : String) (max_tokens : Int) : JValue :=
  .obj
    [("contents", .arr [.obj [("role", .str "user"), ("parts", .arr [.obj [("text", .str prompt)]])]]),
     ("generationConfig", .obj [("temperature", .num (0.2 : Rat)), ("maxOutputTokens", .num (max_tokens : Rat))])]

/-- The fixed warning returned on a well-formed but unusable response. -/
def noUsableText : String := "⚠️ Gemini API returned no usable text."

/-- The `for p in parts:` loop of `gemini_generate`: return the stripped
text of the first part with a present, truthy `"text"`; `Except.error`
models a Python exception raised on a part of an unexpected type. -/
def firstTextLoop : List JValue → Except String (Option String)
  | [] => .ok none
  | p :: rest =>
    match p with
    | .obj pf =>
      match jLookup pf "text" with
      | none => firstTextLoop rest
      | some (.str s) => if s == "" then firstTextLoop rest else .ok (some (pyStrip s))
      | some v => if pyTruthy v then .error "AttributeError: object has no attribute strip" else firstTextLoop rest
    | .str s =>
      if pyIn "text" s then .error "TypeError: string indices must be integers" else firstTextLoop rest
    | .arr elems =>
      if elems.any (fun v => match v with | .str s => s == "text" | _ => false) then
        .error "TypeError: list indices must be integers"
      else firstTextLoop rest
    | _ => .error "TypeError: argument is not a container"

/-- The response handling of `gemini_generate` after a successful POST
and JSON parse (lines 48-54 of `app.py`).  Branches on which Python
would raise (e.g. a non-dict candidate has no `.get`) are modelled as
`Except.error`; every returned string is `Except.ok`. -/
def extractGemini : JValue → Except String String
  | .obj fields =>
    match jLookup fields "candidates" with
    | none => .ok noUsableText
    | some .null => .ok noUsableText
    | some (.bool b) => if b then .error "TypeError: bool is not subscriptable" else .ok noUsableText
    | some (.num q) => if q == 0 then .ok noUsableText else .error "TypeError: int is not subscriptable"
    | some (.str s) => if s == "" then .ok noUsableText else .error "AttributeError: str has no attribute get"
    | some (.obj cfields) => if cfields.isEmpty then .ok noUsableText else .error "KeyError: 0"
    | some (.arr []) => .ok noUsableText
    | some (.arr (cand :: _)) =>
      match cand with
      | .obj cf =>
        match (jLookup cf "content").getD (JValue.obj []) with
        | .obj cfs =>
          match (jLookup cfs "parts").getD (JValue.arr []) with
          | .arr ps =>
            match firstTextLoop ps with
            | .ok (some t) => .ok t
            | .ok none => .ok noUsableText
            | .error e => .error e
          | .str s => .ok noUsableText
          | .obj pfs =>
            if pfs.any (fun kv => pyIn "text" kv.1) then
              .error "TypeError: string indices must be integers"
            else .ok noUsableText
          | _ => .error "TypeError: object is not iterable"
        | _ => .error "AttributeError: object has no attribute get"
      | _ => .error "AttributeError: object has no attribute get"
  | .arr elems =>
    if elems.any (fun v => match v with | .str s => s == "candidates" | _ => false) then
      .error "TypeError: list indices must be integers"
    else .ok noUsableText
  | .str s =>
    if pyIn "candidates" s then .error "TypeError: string indices must be integers" else .ok noUsableText
  | _ => .error "TypeError: argument is not a container"

/-- `gemini_generate(api_key, prompt, max_tokens=300)`.  The POST of
`geminiPayload prompt max_tokens` to `API_URL` and the JSON parse are
abstracted by the `HttpOutcome` argument. -/
def gemini_generate (api_key prompt : String) (max_tokens : Int := 300) :
    HttpOutcome → Except String String
  | .failure e => .ok ("⚠️ Network/Request error: " ++ e)
  | .success data => extractGemini data

-- ---------- Agentic AI Pipeline ----------

/-- The f-string prompt template of `agentic_network_configurator`. -/
def promptTemplate (intent context : String) : String :=
  "\nYou are an expert network engineer AI assistant. Translate the high-level intent into specific, error-free device configurations.\n\nIntent:\n"
  ++ intent
  ++ "\n\nKnowledge Base:\n"
  ++ context
  ++ "\n\nTasks:\n1. Generate device commands and configurations.\n2. Validate commands syntactically.\n3. Suggest optimization if needed.\n4. Provide concise explanation for each configuration.\n\nReturn a structured report.\n"

/-- `agentic_network_configurator(api_key, intent, rag)`: retrieve with
default `k = 3`, join with single spaces, fill the template, call
`gemini_generate` with `max_tokens=350`, return its result verbatim. -/
def agentic_network_configurator (api_key intent : String) (rag : TinyRAG)
    (outcome : HttpOutcome) : Except String String :=
  gemini_generate api_key (promptTemplate intent (pyJoin " " (rag.retrieve intent))) 350 outcome

-- ---------- Spec-side shape predicates and derived notions ----------

/-- A part of the expected kind: a JSON object whose `"text"` field, if
present, is a string. -/
def PartOk (p : JValue) : Prop :=
  ∃ pf, p = JValue.obj pf ∧
    (jLookup pf "text" = none ∨ ∃ s, jLookup pf "text" = some (JValue.str s))

/-- The non-empty text carried by a part, if any. -/
def partText (p : JValue) : Option String :=
  match p with
  | .obj pf =>
    match jLookup pf "text" with
    | some (.str s) => if s == "" then none else some s
    | _ => none
  | _ => none

/-- A first candidate whose content/parts structure yields no usable
text: content missing, or parts missing, or every part lacking a
non-empty string `"text"`. -/
def CandNoText (cand : JValue) : Prop :=
  ∃ cf, cand = JValue.obj cf ∧
    (jLookup cf "content" = none ∨
     ∃ cfs, jLookup cf "content" = some (JValue.obj cfs) ∧
       (jLookup cfs "parts" = none ∨
        ∃ ps, jLookup cfs "parts" = some (JValue.arr ps) ∧
          (∀ p ∈ ps, PartOk p) ∧ (∀ p ∈ ps, partText p = none)))

/-- The well-formed-but-unexpected response shapes of the claim: a JSON
object whose `"candidates"` list is missing or empty, or whose first
candidate carries no usable text. -/
def benignNoText (data : JValue) : Prop :=
  ∃ fields, data = JValue.obj fields ∧
    (jLookup fields "candidates" = none ∨
     jLookup fields "candidates" = some (JValue.arr []) ∨
     ∃ cand rest, jLookup fields "candidates" = some (JValue.arr (cand :: rest)) ∧ CandNoText cand)

/-- The specified behaviour of `retrieve`: at most `k` results, all from
the collection, scores sorted non-increasingly with stable ties, and the
result is the `k`-prefix of the stably sorted scored list. -/
def retrieveSpec (rag : TinyRAG) (q : String) (k : Int) : Prop :=
  ((rag.retrieve q k).length : Int) ≤ k ∧
  (∀ d ∈ rag.retrieve q k, d ∈ rag.docs) ∧
  List.Pairwise (fun a b : Nat × String => b.1 ≤ a.1) (stableSortDesc (rag.scoredList q)) ∧
  (∀ s : Nat, (stableSortDesc (rag.scoredList q)).filter (fun p => p.1 == s)
            = (rag.scoredList q).filter (fun p => p.1 == s)) ∧
  rag.retrieve q k = ((stableSortDesc (rag.scoredList q)).take k.toNat).map Prod.snd

/-- Behaviour of `retrieve` for negative `k` under Python slice
semantics: the last `|k|` qualifying snippets are dropped, and the
result is empty exactly when `|k|` reaches the number of qualifying
snippets. -/
def negSliceSpec (rag : TinyRAG) (q : String) (k : Int) : Prop :=
  rag.retrieve q k
    = ((stableSortDesc (rag.scoredList q)).map Prod.snd).take
        ((stableSortDesc (rag.scoredList q)).length - (-k).toNat) ∧
  (rag.retrieve q k = [] ↔ (stableSortDesc (rag.scoredList q)).length ≤ (-k).toNat)

-- ---------- Helper lemmas ----------

theorem strData_append (s t : String) : (s ++ t).data = s.data ++ t.data := by
  cases s; cases t; rfl

theorem isPrefixL_refl (l : List Char) : isPrefixL l l = true := by
  induction l with
  | nil => rfl
  | cons a as ih => simp [isPrefixL, ih]

theorem isPrefixL_append_of (n m ys : List Char) (h : isPrefixL n m = true) :
    isPrefixL n (m ++ ys) = true := by
  induction n generalizing m with
  | nil => rfl
  | cons a as ih =>
    cases m with
    | nil => simp [isPrefixL] at h
    | cons b bs =>
      simp only [isPrefixL, Bool.and_eq_true] at h ⊢
      exact ⟨h.1, ih bs h.2⟩

theorem isInfixL_of_isPrefixL (n m : List Char) (h : isPrefixL n m = true) :
    isInfixL n m = true := by
  cases m with
  | nil => cases n with
    | nil => rfl
    | cons a as => simp [isPrefixL] at h
  | cons b bs => simp [isInfixL, h]

theorem isInfixL_append_right (n xs ys : List Char) (h : isInfixL n ys = true) :
    isInfixL n (xs ++ ys) = true := by
  induction xs with
  | nil => simpa using h
  | cons x xs ih => simp [isInfixL, ih]

theorem isInfixL_suffix (xs ys : List Char) : isInfixL ys (xs ++ ys) = true := by
  apply isInfixL_append_right
  cases ys with
  | nil => rfl
  | cons b bs => exact isInfixL_of_isPrefixL _ _ (isPrefixL_refl _)

theorem mem_pySliceTo {α : Type} {k : Int} {l : List α} {x : α}
    (h : x ∈ pySliceTo k l) : x ∈ l := by
  unfold pySliceTo at h
  split at h <;> exact List.mem_of_mem_take h

theorem mem_insertDesc {p q : Nat × String} {l : List (Nat × String)} :
    q ∈ insertDesc p l ↔ q = p ∨ q ∈ l := by
  induction l with
  | nil => simp [insertDesc]
  | cons a as ih =>
    simp only [insertDesc]
    split
    · simp only [List.mem_cons, ih]
      tauto
    · simp only [List.mem_cons]

theorem mem_stableSortDesc {p : Nat × String} {l : List (Nat × String)} :
    p ∈ stableSortDesc l ↔ p ∈ l := by
  induction l with
  | nil => simp [stableSortDesc]
  | cons a as ih =>
    simp only [stableSortDesc, mem_insertDesc, ih, List.mem_cons]

theorem pairwise_insertDesc (p : Nat × String) (l : List (Nat × String))
    (h : List.Pairwise (fun a b : Nat × String => b.1 ≤ a.1) l) :
    List.Pairwise (fun a b : Nat × String => b.1 ≤ a.1) (insertDesc p l) := by
  induction l with
  | nil => simp [insertDesc]
  | cons q qs ih =>
    rcases List.pairwise_cons.mp h with ⟨hq, hqs⟩
    simp only [insertDesc]
    split
    · refine List.pairwise_cons.mpr ⟨?_, ih hqs⟩
      intro r hr
      rcases mem_insertDesc.mp hr with rfl | hr2
      · omega
      · exact hq r hr2
    · refine List.pairwise_cons.mpr ⟨?_, h⟩
      intro r hr
      rcases List.mem_cons.mp hr with rfl | hr2
      · omega
      · have := hq r hr2
        omega

theorem pairwise_stableSortDesc (l : List (Nat × String)) :
    List.Pairwise (fun a b : Nat × String => b.1 ≤ a.1) (stableSortDesc l) := by
  induction l with
  | nil => simp [stableSortDesc]
  | cons p ps ih => exact pairwise_insertDesc p _ ih

theorem filter_insertDesc (p : Nat × String) (l : List (Nat × String)) (s : Nat) :
    (insertDesc p l).filter (fun q => q.1 == s)
      = if p.1 = s then p :: l.filter (fun q => q.1 == s)
        else l.filter (fun q => q.1 == s) := by
  induction l with
  | nil =>
    by_cases hps : p.1 = s <;> simp [insertDesc, List.filter_cons, hps]
  | cons q qs ih =>
    simp only [insertDesc]
    split
    · rename_i hlt
      rw [List.filter_cons, ih]
      by_cases hps : p.1 = s
      · have hqs2 : ¬ (q.1 == s) = true := by simp; omega
        simp [hps, hqs2, List.filter_cons]
      · simp [hps, List.filter_cons]
    · by_cases hps : p.1 = s
      · simp [hps, List.filter_cons]
      · simp [hps, List.filter_cons]

theorem filter_stableSortDesc (l : List (Nat × String)) (s : Nat) :
    (stableSortDesc l).filter (fun q => q.1 == s) = l.filter (fun q => q.1 == s) := by
  induction l with
  | nil => rfl
  | cons p ps ih =>
    simp only [stableSortDesc, filter_insertDesc, List.filter_cons, ih]
    by_cases hps : p.1 = s <;> simp [hps]

theorem scoredList_eq_aux (qws : List String) (docs : List String)
    (acc : List (Nat × String)) :
    docs.foldl
      (fun scored doc =>
        let score := docScore qws doc
        if 0 < score then scored ++ [(score, doc)] else scored) acc
      = acc ++ docs.filterMap
          (fun doc =>
            let score := docScore qws doc
            if 0 < score then some (score, doc) else none) := by
  induction docs generalizing acc with
  | nil => simp
  | cons d ds ih =>
    simp only [List.foldl_cons, List.filterMap_cons]
    by_cases hd : 0 < docScore qws d
    · simp only [hd, if_pos, ih]
      simp
    · simp only [hd, if_neg, ih]
      simp [hd]

/-- The `scored` list is the docs with positive score, paired with their
scores, in collection order. -/
theorem scoredList_eq (rag : TinyRAG) (q : String) :
    rag.scoredList q
      = rag.docs.filterMap
          (fun doc =>
            let score := docScore (pySplit (pyLower q)) doc
            if 0 < score then some (score, doc) else none) := by
  unfold TinyRAG.scoredList
  exact scoredList_eq_aux _ _ _

theorem firstTextLoop_of_ok (ps : List JValue) (h : ∀ p ∈ ps, PartOk p) :
    firstTextLoop ps = .ok (Option.map pyStrip (ps.findSome? partText)) := by
  induction ps with
  | nil => rfl
  | cons p rest ih =>
    obtain ⟨pf, rfl, htext⟩ := h p (List.mem_cons_self p rest)
    have hrest := ih (fun q hq => h q (List.mem_cons_of_mem _ hq))
    rcases htext with hnone | ⟨s, hs⟩
    · simp [firstTextLoop, List.findSome?_cons, partText, hnone, hrest]
    · by_cases hse : s = ""
      · subst hse
        simp [firstTextLoop, List.findSome?_cons, partText, hs, hrest]
      · have hbe : ¬ (s == "") = true := by simpa using hse
        simp [firstTextLoop, List.findSome?_cons, partText, hs, hbe]

theorem firstTextLoop_append_skip (ps1 l : List JValue)
    (h : ∀ p ∈ ps1, PartOk p ∧ partText p = none) :
    firstTextLoop (ps1 ++ l) = firstTextLoop l := by
  induction ps1 with
  | nil => rfl
  | cons p rest ih =>
    obtain ⟨⟨pf, rfl, htext⟩, hnone⟩ := h p (List.mem_cons_self p rest)
    have hrest := ih (fun q hq => h q (List.mem_cons_of_mem _ hq))
    rcases htext with hlk | ⟨s, hs⟩
    · simp [firstTextLoop, hlk, hrest]
    · simp only [partText, hs] at hnone
      have hse : s = "" := by
        by_contra hne
        simp [hne] at hnone
      subst hse
      simp [firstTextLoop, hs, hrest]

theorem pyStrip_all_ws (t : String) (h : t.data.all Char.isWhitespace = true) :
    pyStrip t = "" := by
  have hd : t.data.dropWhile Char.isWhitespace = [] := by
    rw [List.dropWhile_eq_nil_iff]
    intro x hx
    exact (List.all_eq_true.mp h) x hx
  simp [pyStrip, hd]

-- ---------- Claim theorems ----------

/-- C1: for every API key and prompt, if the HTTP POST and JSON parse
succeed but the parsed body is any well-formed-but-unexpected shape
(empty or missing `candidates` list, first candidate missing `content`
or `parts`, no part with a non-empty `text`), then `gemini_generate`
returns the fixed warning string "⚠️ Gemini API returned no usable
text." and does not raise. -/
theorem claim_C1_benign_shape_warning (api_key prompt : String) (mt : Int) (data : JValue)
    (h : benignNoText data) :
    gemini_generate api_key prompt mt (HttpOutcome.success data) = Except.ok noUsableText := by
  obtain ⟨fields, rfl, hc⟩ := h
  show extractGemini (JValue.obj fields) = Except.ok noUsableText
  rcases hc with h1 | h1 | ⟨cand, rest, h1, cf, rfl, h2⟩
  · simp [extractGemini, h1]
  · simp [extractGemini, h1]
  · rcases h2 with h2 | ⟨cfs, h2, h3⟩
    · simp [extractGemini, h1, h2, jLookup, firstTextLoop]
    · rcases h3 with h3 | ⟨ps, h3, hok, hnone⟩
      · simp [extractGemini, h1, h2, h3, firstTextLoop]
      · have hloop := firstTextLoop_of_ok ps hok
        have hfs : ps.findSome? partText = none := List.findSome?_eq_none_iff.mpr hnone
        rw [hfs] at hloop
        simp [extractGemini, h1, h2, h3, hloop]

/-- Witness for C1: a response with an empty `candidates` list yields the
fixed warning. -/
theorem claim_C1_witness :
    gemini_generate "key" "prompt" 300
        (HttpOutcome.success (JValue.obj [("candidates", JValue.arr [])]))
      = Except.ok noUsableText :=
  claim_C1_benign_shape_warning "key" "prompt" 300 _
    ⟨[("candidates", JValue.arr [])], rfl, Or.inr (Or.inl rfl)⟩

/-- C2 (amended: for nonnegative `k`): `retrieve` returns at most `k`
snippets, all drawn from the collection, ordered by non-increasing score
with stable ties (the sorted scored list restricted to any score equals
the original scored list restricted to that score). -/
theorem claim_C2_amended (rag : TinyRAG) (q : String) (k : Int) (hk : 0 ≤ k) :
    retrieveSpec rag q k := by
  refine ⟨?_, ?_, pairwise_stableSortDesc _, fun s => filter_stableSortDesc _ s, ?_⟩
  · have h1 : (rag.retrieve q k).length
        = min k.toNat (stableSortDesc (rag.scoredList q)).length := by
      simp [TinyRAG.retrieve, pySliceTo, if_pos hk, List.length_map, List.length_take]
    have h2 := Nat.min_le_left k.toNat (stableSortDesc (rag.scoredList q)).length
    omega
  · intro d hd
    unfold TinyRAG.retrieve at hd
    rcases List.mem_map.mp hd with ⟨p, hp, rfl⟩
    have hp3 : p ∈ rag.scoredList q := mem_stableSortDesc.mp (mem_pySliceTo hp)
    rw [scoredList_eq] at hp3
    rcases List.mem_filterMap.mp hp3 with ⟨doc, hdoc, hsome⟩
    dsimp only at hsome
    by_cases hsc : 0 < docScore (pySplit (pyLower q)) doc
    · rw [if_pos hsc] at hsome
      cases hsome
      exact hdoc
    · rw [if_neg hsc] at hsome
      exact absurd hsome (by simp)
  · simp [TinyRAG.retrieve, pySliceTo, if_pos hk]

/-- Witness for C2 (amended): the specified behaviour at the default
knowledge base, query "vpn", `k = 3`. -/
theorem claim_C2_witness : retrieveSpec TinyRAG.defaultRAG "vpn" 3 :=
  claim_C2_amended TinyRAG.defaultRAG "vpn" 3 (by decide)

/-- Counterexample to C2 as stated for every integer `k`: with `k = -1`
and the query "to" (two qualifying snippets), `retrieve` returns one
snippet, so its length is not at most `k`. -/
theorem claim_C2_counterexample :
    ¬ (((TinyRAG.defaultRAG.retrieve "to" (-1)).length : Int) ≤ -1) := by decide

/-- C3: if the HTTP POST or the JSON parse fails, `gemini_generate`
catches the exception and returns (does not raise) the string
"⚠️ Network/Request error: " followed by the error message; the result
starts with the warning glyph and contains the message. -/
theorem claim_C3_transport_failure (api_key prompt : String) (mt : Int) (e : String) :
    gemini_generate api_key prompt mt (HttpOutcome.failure e)
      = Except.ok ("⚠️ Network/Request error: " ++ e)
    ∧ isPrefixL "⚠️".data ("⚠️ Network/Request error: " ++ e).data = true
    ∧ isInfixL e.data ("⚠️ Network/Request error: " ++ e).data = true := by
  refine ⟨rfl, ?_, ?_⟩
  · rw [strData_append]
    exact isPrefixL_append_of _ _ _ (by decide)
  · rw [strData_append]
    exact isInfixL_suffix _ _

/-- C4: a successful response whose first candidate has a `content.parts`
list with a part bearing a non-empty `text` makes `gemini_generate`
return that (first such) text stripped of surrounding whitespace,
exactly. -/
theorem claim_C4_success_text (api_key prompt : String) (mt : Int)
    (fields cf cfs : List (String × JValue)) (cs ps : List JValue) (t : String)
    (h1 : jLookup fields "candidates" = some (JValue.arr (JValue.obj cf :: cs)))
    (h2 : jLookup cf "content" = some (JValue.obj cfs))
    (h3 : jLookup cfs "parts" = some (JValue.arr ps))
    (hok : ∀ p ∈ ps, PartOk p)
    (ht : ps.findSome? partText = some t) :
    gemini_generate api_key prompt mt (HttpOutcome.success (JValue.obj fields))
      = Except.ok (pyStrip t) := by
  show extractGemini (JValue.obj fields) = Except.ok (pyStrip t)
  have hloop := firstTextLoop_of_ok ps hok
  rw [ht] at hloop
  simp [extractGemini, h1, h2, h3, hloop]

/-- Witness for C4: one candidate, one part with text "  hello  ";
the result is exactly the stripped text "hello". -/
theorem claim_C4_witness :
    gemini_generate "key" "prompt" 300
        (HttpOutcome.success (JValue.obj
          [("candidates", JValue.arr
            [JValue.obj [("content", JValue.obj
              [("parts", JValue.arr [JValue.obj [("text", JValue.str "  hello  ")]])])]])]))
      = Except.ok (pyStrip "  hello  ")
    ∧ pyStrip "  hello  " = "hello" :=
  ⟨claim_C4_success_text "key" "prompt" 300 _ _ _ _ _ "  hello  " rfl rfl rfl
      (by
        intro p hp
        rcases List.mem_singleton.mp hp with rfl
        exact ⟨_, rfl, Or.inr ⟨"  hello  ", rfl⟩⟩)
      rfl,
   by decide⟩

/-- C5: the orchestrator joins `retrieve(intent)` (default `k = 3`) with
single spaces, substitutes intent and context into the fixed template,
calls `gemini_generate` with that prompt and `max_tokens = 350`, and
returns its result verbatim; for the intent "Set up branch office VPN"
against the default knowledge base the constructed prompt contains the
literal snippet text and the literal intent. -/
theorem claim_C5_orchestrator (api_key intent : String) (rag : TinyRAG) (outcome : HttpOutcome) :
    agentic_network_configurator api_key intent rag outcome
      = gemini_generate api_key
          (promptTemplate intent (pyJoin " " (rag.retrieve intent 3))) 350 outcome
    ∧ pyIn "VPN setup requires defining tunnel interfaces"
        (promptTemplate "Set up branch office VPN"
          (pyJoin " " (TinyRAG.defaultRAG.retrieve "Set up branch office VPN" 3))) = true
    ∧ pyIn "Set up branch office VPN"
        (promptTemplate "Set up branch office VPN"
          (pyJoin " " (TinyRAG.defaultRAG.retrieve "Set up branch office VPN" 3))) = true :=
  ⟨rfl, by decide, by decide⟩

/-- C6: `retrieve` tokenises the lowercased query by whitespace, scores
each snippet by the multiplicity-counted number of tokens occurring as
substrings of the lowercased snippet, and keeps exactly the snippets of
positive score; an empty query gives an empty token list, score 0
everywhere, and an empty result for every `k`. -/
theorem claim_C6_scoring (rag : TinyRAG) (q : String) :
    rag.scoredList q
      = rag.docs.filterMap
          (fun doc =>
            let score := docScore (pySplit (pyLower q)) doc
            if 0 < score then some (score, doc) else none)
    ∧ (∀ qws doc, docScore qws doc = (qws.filter (fun w => pyIn w (pyLower doc))).length)
    ∧ pySplit (pyLower "") = []
    ∧ (∀ doc, docScore (pySplit (pyLower "")) doc = 0)
    ∧ (∀ k : Int, rag.retrieve "" k = []) := by
  refine ⟨scoredList_eq rag q,
    fun qws doc => List.countP_eq_length_filter _ _, rfl, fun doc => rfl, ?_⟩
  intro k
  have h0 : rag.scoredList "" = [] := by
    rw [scoredList_eq]
    rw [show pySplit (pyLower "") = [] from rfl]
    induction rag.docs with
    | nil => rfl
    | cons d ds ih =>
      rw [List.filterMap_cons]
      simp [docScore]
  simp only [TinyRAG.retrieve, h0, stableSortDesc]
  unfold pySliceTo
  split <;> simp

/-- C7: `retrieve("vpn tunnel")` on the default knowledge base returns
the VPN snippet first (in fact alone), its score is at least 2, and
every other snippet scores strictly lower. -/
theorem claim_C7_vpn_tunnel :
    TinyRAG.defaultRAG.retrieve "vpn tunnel" 3 = [doc0]
    ∧ 2 ≤ docScore (pySplit (pyLower "vpn tunnel")) doc0
    ∧ docScore (pySplit (pyLower "vpn tunnel")) doc1 < docScore (pySplit (pyLower "vpn tunnel")) doc0
    ∧ docScore (pySplit (pyLower "vpn tunnel")) doc2 < docScore (pySplit (pyLower "vpn tunnel")) doc0
    ∧ docScore (pySplit (pyLower "vpn tunnel")) doc3 < docScore (pySplit (pyLower "vpn tunnel")) doc0 := by
  exact ⟨by decide, by decide, by decide, by decide, by decide⟩

/-- C8: with an empty knowledge collection, `retrieve` returns an empty
sequence for every query and `k`, and the orchestrator's space-join of
that result is the empty context string. -/
theorem claim_C8_empty_collection (q : String) (k : Int) :
    (TinyRAG.mk []).retrieve q k = []
    ∧ pyJoin " " ((TinyRAG.mk []).retrieve q k) = "" := by
  have h : (TinyRAG.mk []).retrieve q k = [] := by
    simp only [TinyRAG.retrieve, TinyRAG.scoredList, List.foldl_nil, stableSortDesc]
    unfold pySliceTo
    split <;> simp
  exact ⟨h, by rw [h]; rfl⟩

/-- C9: for negative `k`, `retrieve` returns the sorted qualifying
snippets with the last `|k|` dropped (Python slice semantics), and the
result is empty exactly when `|k|` is at least the number of qualifying
snippets. -/
theorem claim_C9_negative_k (rag : TinyRAG) (q : String) (k : Int) (hk : k < 0) :
    negSliceSpec rag q k := by
  unfold negSliceSpec
  have hslice : pySliceTo k (stableSortDesc (rag.scoredList q))
      = (stableSortDesc (rag.scoredList q)).take
          ((stableSortDesc (rag.scoredList q)).length - (-k).toNat) := by
    unfold pySliceTo
    rw [if_neg (by omega)]
    congr 1
    omega
  constructor
  · show (pySliceTo k (stableSortDesc (rag.scoredList q))).map Prod.snd = _
    rw [hslice, List.map_take]
  · show (pySliceTo k (stableSortDesc (rag.scoredList q))).map Prod.snd = [] ↔ _
    rw [hslice]
    rw [List.map_eq_nil_iff, List.take_eq_nil_iff]
    constructor
    · rintro (h | h)
      · omega
      · simp [h]
    · intro h
      left
      omega

/-- Witness for C9: query "to" has two qualifying snippets; with
`k = -1` exactly one snippet is returned, unbounded by `k`. -/
theorem claim_C9_witness :
    negSliceSpec TinyRAG.defaultRAG "to" (-1)
    ∧ (TinyRAG.defaultRAG.retrieve "to" (-1)).length = 1
    ∧ (stableSortDesc (TinyRAG.defaultRAG.scoredList "to")).length = 2 :=
  ⟨claim_C9_negative_k TinyRAG.defaultRAG "to" (-1) (by decide), by decide, by decide⟩

/-- C10: with a dict body, non-empty `candidates` whose first element is
a dict, the parts earlier in the list lacking a `text` key or carrying
an empty text are skipped, the first non-empty text is returned
stripped, and if that text is all whitespace the returned success value
is the empty string, not a warning. -/
theorem claim_C10_first_nonempty_text (api_key prompt : String) (mt : Int)
    (fields cf cfs pf : List (String × JValue)) (cs ps1 ps2 : List JValue) (t : String)
    (h1 : jLookup fields "candidates" = some (JValue.arr (JValue.obj cf :: cs)))
    (h2 : jLookup cf "content" = some (JValue.obj cfs))
    (h3 : jLookup cfs "parts" = some (JValue.arr (ps1 ++ JValue.obj pf :: ps2)))
    (hskip : ∀ p ∈ ps1, PartOk p ∧ partText p = none)
    (htext : jLookup pf "text" = some (JValue.str t))
    (hne : t ≠ "") :
    gemini_generate api_key prompt mt (HttpOutcome.success (JValue.obj fields))
      = Except.ok (pyStrip t)
    ∧ (t.data.all Char.isWhitespace = true →
       gemini_generate api_key prompt mt (HttpOutcome.success (JValue.obj fields))
         = Except.ok "") := by
  have hbe : ¬ (t == "") = true := by simp [hne]
  have hloop : firstTextLoop (ps1 ++ JValue.obj pf :: ps2) = .ok (some (pyStrip t)) := by
    rw [firstTextLoop_append_skip ps1 _ hskip]
    simp [firstTextLoop, htext, hbe]
  have hmain : extractGemini (JValue.obj fields) = Except.ok (pyStrip t) := by
    simp [extractGemini, h1, h2, h3, hloop]
  refine ⟨hmain, fun hws => ?_⟩
  show extractGemini (JValue.obj fields) = Except.ok ""
  rw [hmain, pyStrip_all_ws t hws]

/-- Witness for C10: a part with empty text and a part with no text are
skipped; the first non-empty text "   " is all whitespace, so the
returned success value is the empty string. -/
theorem claim_C10_witness :
    gemini_generate "key" "prompt" 300
        (HttpOutcome.success (JValue.obj
          [("candidates", JValue.arr
            [JValue.obj [("content", JValue.obj
              [("parts", JValue.arr
                [JValue.obj [("text", JValue.str "")], JValue.obj [],
                 JValue.obj [("text", JValue.str "   ")]])])]])]))
      = Except.ok "" := by
  have h := claim_C10_first_nonempty_text "key" "prompt" 300
      [("candidates", JValue.arr
        [JValue.obj [("content", JValue.obj
          [("parts", JValue.arr
            [JValue.obj [("text", JValue.str "")], JValue.obj [],
             JValue.obj [("text", JValue.str "   ")]])])]])]
      [("content", JValue.obj
        [("parts", JValue.arr
          [JValue.obj [("text", JValue.str "")], JValue.obj [],
           JValue.obj [("text", JValue.str "   ")]])])]
      [("parts", JValue.arr
        [JValue.obj [("text", JValue.str "")], JValue.obj [],
         JValue.obj [("text", JValue.str "   ")]])]
      [("text", JValue.str "   ")]
      [] [JValue.obj [("text", JValue.str "")], JValue.obj []] [] "   "
      rfl rfl rfl
      (by
        intro p hp
        rcases List.mem_cons.mp hp with rfl | hp2
        · exact ⟨⟨_, rfl, Or.inr ⟨"", rfl⟩⟩, rfl⟩
        · rcases List.mem_singleton.mp hp2 with rfl
          exact ⟨⟨_, rfl, Or.inl rfl⟩, rfl⟩)
      rfl (by decide)
  exact h.2 (by decide)
